import Mathlib

/-!
Shallow embedding of the data-quality routines of `src/data_analysis.py`
(`identify_outliers`, `filter_short_surveys`, `check_data_consistency`).

A pandas DataFrame is modelled as an ordered list of column names together
with a list of rows; each row is a list of cell values aligned with the
column list.  A cell value is a string, a number (ℚ, modelling float64),
a timestamp (ℚ, seconds since the epoch, UTC — `utc=True` followed by
`tz_convert(None)` is the identity on instants in this model) or the
distinguished absent marker `na` (NaN/NaT).

The two library parsers (`pd.to_numeric` on strings and `pd.to_datetime`)
are taken as parameters (`parseNum`, `parseTime`); concrete instances used
by the examples parse plain digit strings.  Python relies on the state of
the caller's DataFrame: `filter_short_surveys` assigns to `df[...]`, so its
embedding returns the post-state of its argument next to its return value.
-/

inductive Value where
  | str (s : String)
  | num (q : ℚ)
  | time (t : ℚ)
  | na
deriving DecidableEq

def Value.isStr : Value → Bool
  | .str _ => true
  | _ => false

def Value.isNa : Value → Bool
  | .na => true
  | _ => false

abbrev Row := List Value

structure DataFrame where
  cols : List String
  rows : List Row
deriving DecidableEq

/-- Position of a column name in a column list (first match, as pandas
resolves a label into a positional index). -/
def colIdxAux (c : String) : List String → Option Nat
  | [] => none
  | a :: as => if a == c then some 0 else (colIdxAux c as).map (· + 1)

def colIdx (df : DataFrame) (c : String) : Option Nat :=
  colIdxAux c df.cols

/-- The series `df.iloc[:, i]`: the i-th cell of every row. -/
def DataFrame.colVals (df : DataFrame) (i : Nat) : List Value :=
  df.rows.map (fun r => r.getD i .na)

/-- The series `df[c]` when the label resolves, `[]` otherwise. -/
def colValsByName (df : DataFrame) (c : String) : List Value :=
  match colIdx df c with
  | some i => df.colVals i
  | none => []

/-- `df[c] = vals`: overwrite the column in place when the label exists,
append a new last column otherwise (pandas column assignment). -/
def setCol (df : DataFrame) (c : String) (vals : List Value) : DataFrame :=
  match colIdx df c with
  | some i => ⟨df.cols, df.rows.zipWith (fun r v => r.set i v) vals⟩
  | none => ⟨df.cols ++ [c], df.rows.zipWith (fun r v => r ++ [v]) vals⟩

/-- Models the validation done by the pandas `.str` accessor: it accepts an
empty column or an object column whose inferred type involves strings
(`string`, `mixed`, `mixed-integer`), and raises `AttributeError` on a
column with no string values at all (numeric, datetime, all-NaN, ...). -/
def strAccessorOk (vals : List Value) : Bool :=
  vals.isEmpty || vals.any Value.isStr

/-- Boolean-mask row selection `df[mask]` (index-aligned). -/
def maskFilter (rows : List Row) (mask : List Bool) : List Row :=
  (rows.zip mask).filterMap (fun p => if p.2 then some p.1 else none)

/-- Python `str.strip()`: drop leading and trailing whitespace. -/
def stripChars (l : List Char) : List Char :=
  ((l.dropWhile Char.isWhitespace).reverse.dropWhile Char.isWhitespace).reverse

def pyStrip (s : String) : String := ⟨stripChars s.data⟩

/-- Character-wise ASCII lowering, used by the concrete `pyLowerAscii`
instance of Python `str.lower` and by the literal-substring reading of the
examples; all example text is ASCII, where this agrees with the Unicode
function. -/
def lowerChars (l : List Char) : List Char := l.map Char.toLower

/-- One cell of `pd.to_numeric(df[column].str.strip(), errors='coerce')`:
strings are stripped and parsed (`none` = NaN on failure); in a mixed
object column, `.str.strip()` already turns every non-string cell into
NaN, which `to_numeric` keeps as NaN. -/
def stripToNumeric (parseNum : String → Option ℚ) : Value → Option ℚ
  | .str s => parseNum (pyStrip s)
  | _ => none

def insertQ (x : ℚ) : List ℚ → List ℚ
  | [] => [x]
  | y :: ys => if x ≤ y then x :: y :: ys else y :: insertQ x ys

/-- Ascending sort of the non-NaN values (insertion sort; only the order
statistics matter). -/
def sortQ : List ℚ → List ℚ
  | [] => []
  | x :: xs => insertQ x (sortQ xs)

/-- `Series.quantile(p)` with the default linear interpolation: position
`h = (n-1)·p`, interpolate between the adjacent order statistics.
`none` models the NaN returned on an empty (all-NaN) series. -/
def quantile (l : List ℚ) (p : ℚ) : Option ℚ :=
  let s := sortQ l
  if s.isEmpty then none
  else
    let h : ℚ := ((l.length : ℚ) - 1) * p
    let i : ℕ := (⌊h⌋).toNat
    let lo := s.getD i 0
    let hi := s.getD (i + 1) lo
    some (lo + (h - (i : ℚ)) * (hi - lo))

inductive Err where
  | keyError (c : String)
  | columnsNotFound (s e : String)
  | conversionFailed (c : String)
  | strAccessorError
  | reError
deriving DecidableEq

deriving instance DecidableEq for Except

/-- `identify_outliers(df, column)` of `src/data_analysis.py`.  The numeric
series is compared against the IQR fences; a NaN quantile (no parseable
value) or a NaN cell makes the comparison false, exactly as in pandas. -/
def identify_outliers (df : DataFrame) (column : String)
    (parseNum : String → Option ℚ) : Except Err (List Row) :=
  match colIdx df column with
  | none => .error (.keyError column)
  | some i =>
    let colvals := df.colVals i
    if strAccessorOk colvals then
      let numeric_data := colvals.map (stripToNumeric parseNum)
      let q1 := quantile (numeric_data.filterMap id) (1/4)
      let q3 := quantile (numeric_data.filterMap id) (3/4)
      let bounds : Option (ℚ × ℚ) :=
        match q1, q3 with
        | some a, some b => some (a - 3/2 * (b - a), b + 3/2 * (b - a))
        | _, _ => none
      let mask := numeric_data.map (fun o =>
        match o, bounds with
        | some x, some (lo, hi) => decide (x < lo) || decide (hi < x)
        | _, _ => false)
      .ok (maskFilter df.rows mask)
    else .error .strAccessorError

/-- One cell of `pd.to_datetime(col, errors='coerce', utc=True)` followed by
`.dt.tz_convert(None)`: a parsed instant or NaT. -/
def convertTimeVal (parseTime : Value → Option ℚ) (v : Value) : Value :=
  match parseTime v with
  | some t => .time t
  | none => .na

def convertTimeCol (parseTime : Value → Option ℚ) (vals : List Value) : List Value :=
  vals.map (convertTimeVal parseTime)

/-- One cell of `abs((df[end] - df[start]).dt.total_seconds() / 60.0)`:
NaT endpoints give NaN. -/
def durationVal : Value → Value → Value
  | .time a, .time b => .num (|b - a| / 60)
  | _, _ => .na

/-- The boolean series `df['duration'] < 20` (NaN compares false). -/
def durationMask (vals : List Value) : List Bool :=
  vals.map (fun v =>
    match v with
    | .num d => decide (d < 20)
    | _ => false)

/-- `dropna(axis=1, how='all')`: keep exactly the columns with at least one
non-NA cell (with zero rows every column is dropped, as in pandas). -/
def dropAllNaCols (df : DataFrame) : DataFrame :=
  let keep := (List.range df.cols.length).filter
    (fun i => df.rows.any (fun r => !(r.getD i Value.na).isNa))
  ⟨keep.map (fun i => df.cols.getD i ""),
   df.rows.map (fun r => keep.map (fun i => r.getD i Value.na))⟩

/-- Lines 43-44 of `data_analysis.py`: the two in-place column conversions
performed on the caller's DataFrame. -/
def convertStage (df : DataFrame) (s e : String)
    (parseTime : Value → Option ℚ) : DataFrame :=
  let df1 := setCol df s (convertTimeCol parseTime (colValsByName df s))
  setCol df1 e (convertTimeCol parseTime (colValsByName df1 e))

/-- Line 57: `df['duration'] = ...`, again mutating the caller's DataFrame. -/
def withDuration (df2 : DataFrame) (s e : String) : DataFrame :=
  setCol df2 "duration"
    (List.zipWith durationVal (colValsByName df2 s) (colValsByName df2 e))

/-- The row-selection mask `df['duration'] < 20` used at line 60. -/
def selectMask (df : DataFrame) (s e : String)
    (parseTime : Value → Option ℚ) : List Bool :=
  durationMask (colValsByName (withDuration (convertStage df s e parseTime) s e) "duration")

/-- `filter_short_surveys(df, start_column, end_column)` of
`src/data_analysis.py`.  The first component of the result is the
post-state of the caller's DataFrame (the function assigns to
`df[start_column]`, `df[end_column]` and `df['duration']`), the second is
the returned filtered DataFrame. -/
def filter_short_surveys (df : DataFrame) (start_column end_column : String)
    (parseTime : Value → Option ℚ) : Except Err (DataFrame × DataFrame) :=
  if !(df.cols.contains start_column) || !(df.cols.contains end_column) then
    .error (.columnsNotFound start_column end_column)
  else
    let df2 := convertStage df start_column end_column parseTime
    if (colValsByName df2 start_column).all Value.isNa then
      .error (.conversionFailed start_column)
    else if (colValsByName df2 end_column).all Value.isNa then
      .error (.conversionFailed end_column)
    else
      let df3 := withDuration df2 start_column end_column
      let short_surveys := maskFilter df3.rows (durationMask (colValsByName df3 "duration"))
      .ok (df3, dropAllNaCols ⟨df3.cols, short_surveys⟩)

structure Rule where
  question_1 : String
  expected_answer_1 : Value
  question_2 : String
  invalid_answer_2_contains : String
  error_label : String
deriving DecidableEq

/-- One cell of `df[q1] == a1`: pandas elementwise equality; NaN is equal
to nothing. -/
def eqValue : Value → Value → Bool
  | .na, _ => false
  | _, .na => false
  | a, b => a == b

/-- Python `re.search` anchored at the current position, for the pattern
fragment consisting of literal characters and the wildcard `.` (which
matches any character except a newline).  This is only the concrete
fragment instance used by `rePatDot` below; the embedding of
`str.contains` itself takes the compile-and-search function as a
parameter. -/
def matchHere : List Char → List Char → Bool
  | [], _ => true
  | _ :: _, [] => false
  | p :: ps, c :: cs => (if p == '.' then c != '\n' else p == c) && matchHere ps cs

def reSearchAux (pat : List Char) : List Char → Bool
  | [] => matchHere pat []
  | c :: cs => matchHere pat (c :: cs) || reSearchAux pat cs

/-- `re.search(pat, s)` succeeds at some position of `s` (literal-and-dot
pattern fragment). -/
def strContainsRegex (pat s : String) : Bool :=
  reSearchAux pat.data s.data

/-- One cell of `df[q2].str.lower().str.contains(..., na=False)` once the
pattern has been compiled into `matcher`: non-string cells became NaN
under `.str.lower()`, and `na=False` turns NaN into a non-match. -/
def q2Matches (pyLower : String → String) (matcher : String → Bool) : Value → Bool
  | .str s => matcher (pyLower s)
  | _ => false

/-- The body of the loop of `check_data_consistency` for one rule.
`pyLower` is Python's Unicode `str.lower`; `rePat` is `re.compile`
followed by `re.search` of the compiled pattern, with `none` modelling
`re.error` on a malformed pattern.  `df[q1]` and `df[q2]` raise `KeyError`
on a missing label, `.str` raises on a string-less column, the pattern is
compiled before any row is examined (so a malformed pattern raises even on
zero rows), and then the selected rows are counted. -/
def checkRule (df : DataFrame) (rule : Rule) (pyLower : String → String)
    (rePat : String → Option (String → Bool)) : Except Err Nat :=
  match colIdx df rule.question_1 with
  | none => .error (.keyError rule.question_1)
  | some i =>
    match colIdx df rule.question_2 with
    | none => .error (.keyError rule.question_2)
    | some j =>
      if strAccessorOk (df.colVals j) then
        match rePat (pyLower rule.invalid_answer_2_contains) with
        | none => .error .reError
        | some matcher =>
          .ok ((df.rows.filter (fun r =>
            eqValue (r.getD i .na) rule.expected_answer_1 &&
            q2Matches pyLower matcher (r.getD j .na))).length)
      else .error .strAccessorError

/-- Python dict assignment `error_counts[label] = n`: overwrite in place
when the key exists, append otherwise (insertion order preserved). -/
def dictInsert (m : List (String × Nat)) (k : String) (v : Nat) : List (String × Nat) :=
  if m.any (fun p => p.1 == k) then m.map (fun p => if p.1 == k then (k, v) else p)
  else m ++ [(k, v)]

def lookupDict (m : List (String × Nat)) (k : String) : Option Nat :=
  (m.find? (fun p => p.1 == k)).map (·.2)

/-- The `for rule in rules` loop: the first raising rule aborts the whole
call, the accumulated dictionary is lost. -/
def ccLoop (df : DataFrame) (pyLower : String → String)
    (rePat : String → Option (String → Bool)) (acc : List (String × Nat)) :
    List Rule → Except Err (List (String × Nat))
  | [] => .ok acc
  | rule :: rest =>
    match checkRule df rule pyLower rePat with
    | .error e => .error e
    | .ok c => ccLoop df pyLower rePat (dictInsert acc rule.error_label c) rest

/-- `check_data_consistency(df, rules)` of `src/data_analysis.py`,
parameterised by the Python lowering and regex-search library functions. -/
def check_data_consistency (df : DataFrame) (rules : List Rule)
    (pyLower : String → String) (rePat : String → Option (String → Bool)) :
    Except Err (List (String × Nat)) :=
  ccLoop df pyLower rePat [] rules

/-!
Spec-side formulations: the statistical fences and the per-row predicates
as the specification describes them, plus the literal-substring reading of
the ConsistencyChecker contract used to compare against the code's regex
behaviour.
-/

/-- The parseable numeric values of column `i` (whitespace-stripped string
cells that parse), which the spec says the quartiles are computed from. -/
def parseableVals (df : DataFrame) (i : Nat) (parseNum : String → Option ℚ) : List ℚ :=
  df.rows.filterMap (fun r => stripToNumeric parseNum (r.getD i .na))

/-- The fences `[Q1 - 1.5·IQR, Q3 + 1.5·IQR]`, undefined when the column
has no parseable value. -/
def specBounds (df : DataFrame) (i : Nat) (parseNum : String → Option ℚ) :
    Option (ℚ × ℚ) :=
  match quantile (parseableVals df i parseNum) (1/4),
        quantile (parseableVals df i parseNum) (3/4) with
  | some a, some b => some (a - 3/2 * (b - a), b + 3/2 * (b - a))
  | _, _ => none

/-- The spec's outlier condition on one cell: its stripped value parses
and lies strictly outside the fences; an unparsable cell is never an
outlier. -/
def specOutlierPred (df : DataFrame) (i : Nat) (parseNum : String → Option ℚ)
    (v : Value) : Bool :=
  match stripToNumeric parseNum v, specBounds df i parseNum with
  | some x, some (lo, hi) => decide (x < lo) || decide (hi < x)
  | _, _ => false

/-- Literal (non-regex) substring containment. -/
def isSubstrB (pat s : List Char) : Bool :=
  (List.range (s.length + 1)).any (fun i => pat.isPrefixOf (s.drop i))

/-- The claim's literal reading of the q2 test: the lowered cell contains
the lowered pattern as a literal substring. -/
def q2ContainsLiteral (pat : String) : Value → Bool
  | .str s => isSubstrB (lowerChars pat.data) (lowerChars s.data)
  | _ => false

/-- Number of rows a rule should select under the claim's literal-substring
reading. -/
def ruleCountLiteral (df : DataFrame) (rule : Rule) : Nat :=
  match colIdx df rule.question_1, colIdx df rule.question_2 with
  | some i, some j =>
    (df.rows.filter (fun r =>
      eqValue (r.getD i .na) rule.expected_answer_1 &&
      q2ContainsLiteral rule.invalid_answer_2_contains (r.getD j .na))).length
  | _, _ => 0

/-- Number of rows a rule selects under the code's regex reading: exact
match on q1 and a successful `re.search` of the lowered compiled pattern
in the lowered q2 cell. -/
def ruleCount (df : DataFrame) (rule : Rule) (pyLower : String → String)
    (rePat : String → Option (String → Bool)) : Nat :=
  match colIdx df rule.question_1, colIdx df rule.question_2,
        rePat (pyLower rule.invalid_answer_2_contains) with
  | some i, some j, some matcher =>
    (df.rows.filter (fun r =>
      eqValue (r.getD i .na) rule.expected_answer_1 &&
      q2Matches pyLower matcher (r.getD j .na))).length
  | _, _, _ => 0

/-- A rule whose two columns resolve, whose q2 column the `.str` accessor
accepts, and whose pattern compiles. -/
def ruleEvaluable (df : DataFrame) (rule : Rule) (pyLower : String → String)
    (rePat : String → Option (String → Bool)) : Bool :=
  match colIdx df rule.question_1, colIdx df rule.question_2 with
  | some _, some j =>
    strAccessorOk (df.colVals j) &&
      (rePat (pyLower rule.invalid_answer_2_contains)).isSome
  | _, _ => false

/-- The spec's per-row duration: both endpoints parse, `|end - start|` in
minutes; absent otherwise. -/
def specRowDuration (parseTime : Value → Option ℚ) (i j : Nat) (r : Row) : Option ℚ :=
  match parseTime (r.getD i .na), parseTime (r.getD j .na) with
  | some a, some b => some (|b - a| / 60)
  | _, _ => none

/-- The spec's row-selection condition: duration defined and under 20
minutes (absent durations never selected). -/
def specSelB (parseTime : Value → Option ℚ) (i j : Nat) (r : Row) : Bool :=
  match specRowDuration parseTime i j r with
  | some d => decide (d < 20)
  | none => false

/-- What one row of the caller's DataFrame looks like after
`filter_short_surveys` ran: both timestamp columns replaced by their
parsed values and the duration appended as a new last cell. -/
def convRow (parseTime : Value → Option ℚ) (i j : Nat) (r : Row) : Row :=
  ((r.set i (convertTimeVal parseTime (r.getD i .na))).set j
      (convertTimeVal parseTime (r.getD j .na))) ++
    [match specRowDuration parseTime i j r with
     | some d => Value.num d
     | none => Value.na]

/-- The post-state of the caller's DataFrame predicted by the spec-side
description (used to characterise the mutation). -/
def mutatedDF (df : DataFrame) (i j : Nat) (parseTime : Value → Option ℚ) : DataFrame :=
  ⟨df.cols ++ ["duration"], df.rows.map (convRow parseTime i j)⟩

/-- Swap the values of columns `i` and `j` in one row. -/
def swapValsRow (i j : Nat) (r : Row) : Row :=
  (r.set i (r.getD j .na)).set j (r.getD i .na)

/-- Swap two columns' values row-wise across the dataset. -/
def swapCols (df : DataFrame) (s e : String) : DataFrame :=
  match colIdx df s, colIdx df e with
  | some i, some j => ⟨df.cols, df.rows.map (swapValsRow i j)⟩
  | _, _ => df

/-!
Concrete parsers and datasets for the examples and witnesses.
-/

def digitsToNat (l : List Char) : Nat :=
  l.foldl (fun n c => n * 10 + (c.toNat - 48)) 0

/-- A concrete instance of `pd.to_numeric` handling plain digit strings. -/
def parseNumSimple (s : String) : Option ℚ :=
  if !s.data.isEmpty && s.data.all Char.isDigit then
    some (digitsToNat s.data : ℚ)
  else none

/-- A concrete instance of `pd.to_datetime`: digit strings are seconds
since the epoch, already-parsed timestamps pass through. -/
def parseTimeSimple : Value → Option ℚ
  | .str s => parseNumSimple s
  | .time t => some t
  | _ => none

/-- A concrete instance of Python `str.lower`: character-wise ASCII
lowering, which agrees with the Unicode function on the ASCII-only text of
the examples. -/
def pyLowerAscii (s : String) : String := ⟨lowerChars s.data⟩

/-- The regex metacharacters other than the dot. -/
def reMeta : List Char :=
  ['\\', '^', '$', '*', '+', '?', '\x7b', '\x7d', '[', ']', '|', '(', ')']

/-- A concrete instance of `re.compile` followed by `re.search`, covering
the fragment of patterns built from literal characters and the `.`
wildcard.  Any other metacharacter is outside the modelled fragment and is
mapped to a compile failure — exact for a malformed pattern such as a lone
opening bracket, conservative for valid regex features no example uses.
Every pattern appearing in the examples is a plain word or a dot. -/
def rePatDot (pat : String) : Option (String → Bool) :=
  if pat.data.all (fun c => !reMeta.contains c) then
    some (fun s => reSearchAux pat.data s.data)
  else none

/-- Column of the worked numeric example of the spec
(`[10,12,11,13,100,9,12]`, stored as strings). -/
def dfC9 : DataFrame :=
  ⟨["v"],
   [[.str "10"], [.str "12"], [.str "11"], [.str "13"], [.str "100"],
    [.str "9"], [.str "12"]]⟩

/-- Small dataset with one unparsable cell and one extreme value, used to
exercise the outlier filter. -/
def dfC1 : DataFrame :=
  ⟨["c", "k"],
   [[.str " 1 ", .str "a"], [.str "2", .str "b"], [.str "xx", .str "c"],
    [.str "3", .str "d"], [.str "1000", .str "e"]]⟩

/-- The three-row consistency example of the spec. -/
def dfC2 : DataFrame :=
  ⟨["q1", "q2"],
   [[.str "Y", .str "No issue"], [.str "Y", .str "Has ERROR here"],
    [.str "N", .str "error"]]⟩

def ruleC2 : Rule := ⟨"q1", .str "Y", "q2", "error", "L1"⟩

/-- Dataset and rule whose pattern is the regex metacharacter dot. -/
def dfC2x : DataFrame := ⟨["q1", "q2"], [[.str "Y", .str "ab"]]⟩

def ruleC2x : Rule := ⟨"q1", .str "Y", "q2", ".", "L1"⟩

/-- Survey-duration example: 15 min, 45 min, and an unparsable start. -/
def dfC3 : DataFrame :=
  ⟨["s", "e"],
   [[.str "0", .str "900"], [.str "0", .str "2700"], [.str "bad", .str "60"]]⟩

/-- Rows whose durations are all absent (one endpoint unparsable each
way), so the selection itself is vacuous. -/
def dfC4 : DataFrame := ⟨["s", "e"], [[.str "0", .str "x"], [.str "x", .str "0"]]⟩

def dfC5 : DataFrame := ⟨["a", "b"], [[.str "Y", .str "ok"]]⟩

/-- A rule referencing a missing column followed by a perfectly valid
rule. -/
def rulesC5 : List Rule :=
  [⟨"missing", .str "Y", "b", "err", "L1"⟩, ⟨"a", .str "Y", "b", "err", "L2"⟩]

/-- An empty dataset (zero rows) with a usable schema. -/
def dfEmpty : DataFrame := ⟨["start", "end", "q"], []⟩

def ruleEmpty : Rule := ⟨"q", .str "Y", "q", "x", "L0"⟩

/-- Start column entirely unparsable. -/
def dfC7 : DataFrame := ⟨["s", "e"], [[.str "bad", .str "60"]]⟩

/-- A numeric-typed (non-string) column. -/
def dfC10 : DataFrame := ⟨["n"], [[.num 1], [.num 2]]⟩

/-!
Basic lemmas about the list-level building blocks.
-/

theorem maskFilter_map (l : List Row) (f : Row → Bool) :
    maskFilter l (l.map f) = l.filter f := by
  induction l with
  | nil => rfl
  | cons a as ih =>
    simp only [maskFilter, List.map_cons, List.zip_cons_cons, List.filterMap_cons,
      List.filter_cons] at *
    cases f a <;> simp [ih]

theorem zipWith_self_map {α β γ : Type} (l : List α) (g : α → β → γ) (f : α → β) :
    List.zipWith g l (l.map f) = l.map (fun a => g a (f a)) := by
  induction l with
  | nil => rfl
  | cons a as ih => simp [ih]

theorem getD_set_ne {α : Type} (l : List α) (i j : Nat) (v d : α) (h : i ≠ j) :
    (l.set i v).getD j d = l.getD j d := by
  induction l generalizing i j with
  | nil => simp
  | cons a as ih =>
    cases i with
    | zero => cases j with
      | zero => exact absurd rfl h
      | succ j' => simp [List.getD]
    | succ i' => cases j with
      | zero => simp [List.getD]
      | succ j' =>
        simp only [List.set, List.getD_cons_succ]
        exact ih i' j' (fun e => h (by rw [e]))

theorem getD_set_self {α : Type} (l : List α) (i : Nat) (v d : α) (h : i < l.length) :
    (l.set i v).getD i d = v := by
  induction l generalizing i with
  | nil => simp at h
  | cons a as ih =>
    cases i with
    | zero => rfl
    | succ i' =>
      simp only [List.set, List.getD_cons_succ]
      exact ih i' (Nat.lt_of_succ_lt_succ h)

theorem getD_append_left {α : Type} (l l' : List α) (i : Nat) (d : α)
    (h : i < l.length) : (l ++ l').getD i d = l.getD i d := by
  induction l generalizing i with
  | nil => simp at h
  | cons a as ih =>
    cases i with
    | zero => rfl
    | succ i' =>
      simp only [List.cons_append, List.getD_cons_succ]
      exact ih i' (Nat.lt_of_succ_lt_succ h)

theorem getD_append_self {α : Type} (l : List α) (v d : α) :
    (l ++ [v]).getD l.length d = v := by
  induction l with
  | nil => rfl
  | cons a as ih => simp [ih]

theorem colIdxAux_lt_length {c : String} {l : List String} {i : Nat}
    (h : colIdxAux c l = some i) : i < l.length := by
  induction l generalizing i with
  | nil => simp [colIdxAux] at h
  | cons a as ih =>
    by_cases ha : (a == c) = true
    · simp only [colIdxAux, ha, if_true, Option.some.injEq] at h
      subst h
      simp
    · simp only [colIdxAux, ha, if_false] at h
      cases hx : colIdxAux c as with
      | none => rw [hx] at h; simp at h
      | some i' =>
        rw [hx] at h
        simp at h
        have := ih hx
        simp only [List.length_cons]
        omega

theorem contains_of_colIdxAux {c : String} {l : List String} {i : Nat}
    (h : colIdxAux c l = some i) : l.contains c = true := by
  induction l generalizing i with
  | nil => simp [colIdxAux] at h
  | cons a as ih =>
    by_cases ha : (a == c) = true
    · have hca : c = a := (beq_iff_eq.mp ha).symm
      simp [List.contains_cons, hca]
    · simp only [colIdxAux, ha, if_false] at h
      cases hx : colIdxAux c as with
      | none => rw [hx] at h; simp at h
      | some i' =>
        simp only [List.contains_cons, Bool.or_eq_true]
        exact Or.inr (ih hx)

theorem beq_symm_false {a c : String} (h : (c == a) = false) : (a == c) = false :=
  beq_eq_false_iff_ne.mpr (fun e => (beq_eq_false_iff_ne.mp h) e.symm)

theorem colIdxAux_of_not_contains {c : String} {l : List String}
    (h : l.contains c = false) : colIdxAux c l = none := by
  induction l with
  | nil => rfl
  | cons a as ih =>
    simp only [List.contains_cons, Bool.or_eq_false_iff] at h
    simp [colIdxAux, beq_symm_false h.1, ih h.2]

theorem colIdxAux_append_self {c : String} {l : List String}
    (h : l.contains c = false) : colIdxAux c (l ++ [c]) = some l.length := by
  induction l with
  | nil => simp [colIdxAux]
  | cons a as ih =>
    simp only [List.contains_cons, Bool.or_eq_false_iff] at h
    simp [colIdxAux, beq_symm_false h.1, ih h.2]

theorem strAccessorOk_of_all_str {vals : List Value}
    (h : ∀ v ∈ vals, v.isStr = true) : strAccessorOk vals = true := by
  cases vals with
  | nil => rfl
  | cons v vs =>
    simp only [strAccessorOk, List.any_cons, Bool.or_eq_true, List.isEmpty_cons]
    exact Or.inr (Or.inl (h v (List.mem_cons_self v vs)))

/-!
Characterisation of `identify_outliers`: on an existing all-string column
the boolean-mask selection is exactly the row filter described by the
specification.
-/

theorem identify_outliers_eq_filter (df : DataFrame) (column : String)
    (parseNum : String → Option ℚ) (i : Nat)
    (hi : colIdx df column = some i)
    (hstr : ∀ v ∈ df.colVals i, v.isStr = true) :
    identify_outliers df column parseNum =
      .ok (df.rows.filter (fun r => specOutlierPred df i parseNum (r.getD i .na))) := by
  have hacc := strAccessorOk_of_all_str hstr
  have h1 : (df.colVals i).map (stripToNumeric parseNum) =
      df.rows.map (fun r => stripToNumeric parseNum (r.getD i .na)) := by
    simp only [DataFrame.colVals, List.map_map]
    rfl
  simp only [identify_outliers, hi, hacc, if_true, h1, List.map_map, List.filterMap_map]
  rw [maskFilter_map]
  rfl

/-!
Characterisation of `filter_short_surveys`: shape of the mutated
DataFrame, the conversion-failure checks and the row selection.
-/

theorem zipWith_map_same {α β β' γ : Type} (l : List α) (g : β → β' → γ)
    (f1 : α → β) (f2 : α → β') :
    List.zipWith g (l.map f1) (l.map f2) = l.map (fun a => g (f1 a) (f2 a)) := by
  induction l with
  | nil => rfl
  | cons a as ih => simp [ih]

theorem setCol_cols_of_idx {df : DataFrame} {c : String} {i : Nat} (vals : List Value)
    (h : colIdx df c = some i) : (setCol df c vals).cols = df.cols := by
  simp [setCol, h]

theorem convertVal_isNa_iff (p : Value → Option ℚ) (v : Value) :
    (convertTimeVal p v).isNa = true ↔ p v = none := by
  unfold convertTimeVal
  cases hp : p v <;> simp [Value.isNa]

theorem allNa_convert_iff (p : Value → Option ℚ) (vals : List Value) :
    ((vals.map (convertTimeVal p)).all Value.isNa = true) ↔ ∀ v ∈ vals, p v = none := by
  simp only [List.all_eq_true, List.mem_map, forall_exists_index, and_imp]
  constructor
  · intro h v hv
    exact (convertVal_isNa_iff p v).mp (h _ v hv rfl)
  · intro h x v hv hx
    subst hx
    exact (convertVal_isNa_iff p v).mpr (h v hv)

theorem convertStage_def (df : DataFrame) (s e : String) (p : Value → Option ℚ)
    (i j : Nat) (hi : colIdx df s = some i) (hj : colIdx df e = some j)
    (hij : i ≠ j) :
    convertStage df s e p =
      ⟨df.cols, df.rows.map (fun r =>
        (r.set i (convertTimeVal p (r.getD i .na))).set j
          (convertTimeVal p (r.getD j .na)))⟩ := by
  unfold convertStage
  have hv1 : colValsByName df s = df.rows.map (fun r => r.getD i .na) := by
    simp [colValsByName, hi, DataFrame.colVals]
  have hdf1 : setCol df s (convertTimeCol p (colValsByName df s)) =
      ⟨df.cols, df.rows.map (fun r => r.set i (convertTimeVal p (r.getD i .na)))⟩ := by
    simp only [setCol, hi, hv1, convertTimeCol, List.map_map]
    congr 1
    exact zipWith_self_map df.rows (fun r v => r.set i v)
      (fun r => convertTimeVal p (r.getD i .na))
  rw [hdf1]
  have hj1 : colIdx ⟨df.cols, df.rows.map
      (fun r => r.set i (convertTimeVal p (r.getD i .na)))⟩ e = some j := hj
  have hv2 : colValsByName ⟨df.cols, df.rows.map
      (fun r => r.set i (convertTimeVal p (r.getD i .na)))⟩ e =
      df.rows.map (fun r => r.getD j .na) := by
    simp only [colValsByName, hj1, DataFrame.colVals, List.map_map]
    refine List.map_congr_left (fun r _ => ?_)
    exact getD_set_ne r i j _ .na hij
  simp only [setCol, hj1, hv2, convertTimeCol, List.map_map]
  congr 1
  exact zipWith_map_same df.rows (fun r v => r.set j v)
    (fun r => r.set i (convertTimeVal p (r.getD i .na)))
    (fun r => convertTimeVal p (r.getD j .na))

theorem convertStage_colVals_s (df : DataFrame) (s e : String) (p : Value → Option ℚ)
    (i j : Nat) (hi : colIdx df s = some i) (hj : colIdx df e = some j)
    (hij : i ≠ j) (hrows : ∀ r ∈ df.rows, r.length = df.cols.length) :
    colValsByName (convertStage df s e p) s =
      df.rows.map (fun r => convertTimeVal p (r.getD i .na)) := by
  have hi' : colIdxAux s df.cols = some i := hi
  rw [convertStage_def df s e p i j hi hj hij]
  simp only [colValsByName, colIdx, hi', DataFrame.colVals, List.map_map]
  refine List.map_congr_left (fun r hr => ?_)
  have hilt : i < r.length := by
    rw [hrows r hr]
    exact colIdxAux_lt_length hi
  simp only [Function.comp_apply]
  rw [getD_set_ne _ j i _ Value.na (fun h => hij h.symm)]
  rw [getD_set_self r i _ Value.na hilt]

theorem convertStage_colVals_e (df : DataFrame) (s e : String) (p : Value → Option ℚ)
    (i j : Nat) (hi : colIdx df s = some i) (hj : colIdx df e = some j)
    (hij : i ≠ j) (hrows : ∀ r ∈ df.rows, r.length = df.cols.length) :
    colValsByName (convertStage df s e p) e =
      df.rows.map (fun r => convertTimeVal p (r.getD j .na)) := by
  have hj' : colIdxAux e df.cols = some j := hj
  rw [convertStage_def df s e p i j hi hj hij]
  simp only [colValsByName, colIdx, hj', DataFrame.colVals, List.map_map]
  refine List.map_congr_left (fun r hr => ?_)
  have hjlt : j < r.length := by
    rw [hrows r hr]
    exact colIdxAux_lt_length hj
  simp only [Function.comp_apply]
  rw [getD_set_self _ j _ Value.na (by simpa using hjlt)]

theorem durationVal_convert (p : Value → Option ℚ) (i j : Nat) (r : Row) :
    durationVal (convertTimeVal p (r.getD i .na)) (convertTimeVal p (r.getD j .na)) =
      (match specRowDuration p i j r with
       | some d => Value.num d
       | none => Value.na) := by
  unfold durationVal convertTimeVal specRowDuration
  cases p (r.getD i .na) <;> cases p (r.getD j .na) <;> rfl

theorem mutated_eq (df : DataFrame) (s e : String) (p : Value → Option ℚ)
    (i j : Nat) (hi : colIdx df s = some i) (hj : colIdx df e = some j)
    (hij : i ≠ j) (hrows : ∀ r ∈ df.rows, r.length = df.cols.length)
    (hdur : df.cols.contains "duration" = false) :
    withDuration (convertStage df s e p) s e = mutatedDF df i j p := by
  have hcv_s := convertStage_colVals_s df s e p i j hi hj hij hrows
  have hcv_e := convertStage_colVals_e df s e p i j hi hj hij hrows
  have hcols : (convertStage df s e p).cols = df.cols := by
    rw [convertStage_def df s e p i j hi hj hij]
  unfold withDuration
  have hnone : colIdx (convertStage df s e p) "duration" = none := by
    unfold colIdx
    rw [hcols]
    exact colIdxAux_of_not_contains hdur
  simp only [setCol, hnone, hcv_s, hcv_e]
  rw [zipWith_map_same df.rows durationVal
    (fun r => convertTimeVal p (r.getD i .na))
    (fun r => convertTimeVal p (r.getD j .na))]
  rw [convertStage_def df s e p i j hi hj hij]
  unfold mutatedDF
  simp only [hcols]
  congr 1
  rw [zipWith_map_same]
  refine List.map_congr_left (fun r hr => ?_)
  rw [durationVal_convert p i j r]
  rfl

theorem maskFilter_map_map {α : Type} (l : List α) (g : α → Row) (f : α → Bool) :
    maskFilter (l.map g) (l.map f) = (l.filter f).map g := by
  induction l with
  | nil => rfl
  | cons a as ih =>
    simp only [maskFilter, List.map_cons, List.zip_cons_cons, List.filterMap_cons,
      List.filter_cons] at *
    cases f a <;> simp [ih]

theorem convRow_length (p : Value → Option ℚ) (i j : Nat) (r : Row) :
    (convRow p i j r).length = r.length + 1 := by
  unfold convRow
  simp

theorem durMask_eq (df : DataFrame) (i j : Nat) (p : Value → Option ℚ)
    (hrows : ∀ r ∈ df.rows, r.length = df.cols.length)
    (hdur : df.cols.contains "duration" = false) :
    durationMask (colValsByName (mutatedDF df i j p) "duration") =
      df.rows.map (specSelB p i j) := by
  have hidx : colIdxAux "duration" (df.cols ++ ["duration"]) = some df.cols.length :=
    colIdxAux_append_self hdur
  simp only [colValsByName, mutatedDF, colIdx, hidx, DataFrame.colVals, List.map_map,
    durationMask]
  refine List.map_congr_left (fun r hr => ?_)
  simp only [Function.comp_apply]
  have hlen : ((r.set i (convertTimeVal p (r.getD i .na))).set j
      (convertTimeVal p (r.getD j .na))).length = df.cols.length := by
    simp [hrows r hr]
  unfold convRow
  rw [← hlen, getD_append_self]
  unfold specSelB
  cases specRowDuration p i j r <;> rfl

theorem selectMask_eq (df : DataFrame) (s e : String) (p : Value → Option ℚ)
    (i j : Nat) (hi : colIdx df s = some i) (hj : colIdx df e = some j)
    (hij : i ≠ j) (hrows : ∀ r ∈ df.rows, r.length = df.cols.length)
    (hdur : df.cols.contains "duration" = false) :
    selectMask df s e p = df.rows.map (specSelB p i j) := by
  unfold selectMask
  rw [mutated_eq df s e p i j hi hj hij hrows hdur]
  exact durMask_eq df i j p hrows hdur

theorem filter_short_surveys_ok (df : DataFrame) (s e : String)
    (p : Value → Option ℚ) (i j : Nat)
    (hi : colIdx df s = some i) (hj : colIdx df e = some j) (hij : i ≠ j)
    (hrows : ∀ r ∈ df.rows, r.length = df.cols.length)
    (hdur : df.cols.contains "duration" = false)
    (hs : ¬ ∀ v ∈ df.colVals i, p v = none)
    (he : ¬ ∀ v ∈ df.colVals j, p v = none) :
    filter_short_surveys df s e p =
      .ok (mutatedDF df i j p,
        dropAllNaCols ⟨df.cols ++ ["duration"],
          (df.rows.filter (specSelB p i j)).map (convRow p i j)⟩) := by
  have hcs : df.cols.contains s = true := contains_of_colIdxAux hi
  have hce : df.cols.contains e = true := contains_of_colIdxAux hj
  have hfuse_s : df.rows.map (fun r => convertTimeVal p (r.getD i .na)) =
      (df.colVals i).map (convertTimeVal p) := by
    simp [DataFrame.colVals, List.map_map]
  have hfuse_e : df.rows.map (fun r => convertTimeVal p (r.getD j .na)) =
      (df.colVals j).map (convertTimeVal p) := by
    simp [DataFrame.colVals, List.map_map]
  have hsf : (colValsByName (convertStage df s e p) s).all Value.isNa = false := by
    rw [convertStage_colVals_s df s e p i j hi hj hij hrows, hfuse_s]
    rcases hb : ((df.colVals i).map (convertTimeVal p)).all Value.isNa with _ | _
    · rfl
    · exact absurd ((allNa_convert_iff p (df.colVals i)).mp hb) hs
  have hef : (colValsByName (convertStage df s e p) e).all Value.isNa = false := by
    rw [convertStage_colVals_e df s e p i j hi hj hij hrows, hfuse_e]
    rcases hb : ((df.colVals j).map (convertTimeVal p)).all Value.isNa with _ | _
    · rfl
    · exact absurd ((allNa_convert_iff p (df.colVals j)).mp hb) he
  unfold filter_short_surveys
  simp only [hcs, hce, Bool.not_true, Bool.or_self, Bool.false_eq_true, if_false,
    hsf, hef, if_true]
  rw [mutated_eq df s e p i j hi hj hij hrows hdur]
  rw [durMask_eq df i j p hrows hdur]
  have hrows3 : (mutatedDF df i j p).rows = df.rows.map (convRow p i j) := rfl
  rw [hrows3, maskFilter_map_map df.rows (convRow p i j) (specSelB p i j)]
  rfl

theorem filter_short_surveys_err_s (df : DataFrame) (s e : String)
    (p : Value → Option ℚ) (i j : Nat)
    (hi : colIdx df s = some i) (hj : colIdx df e = some j) (hij : i ≠ j)
    (hrows : ∀ r ∈ df.rows, r.length = df.cols.length)
    (hs : ∀ v ∈ df.colVals i, p v = none) :
    filter_short_surveys df s e p = .error (.conversionFailed s) := by
  have hcs : df.cols.contains s = true := contains_of_colIdxAux hi
  have hce : df.cols.contains e = true := contains_of_colIdxAux hj
  have hfuse_s : df.rows.map (fun r => convertTimeVal p (r.getD i .na)) =
      (df.colVals i).map (convertTimeVal p) := by
    simp [DataFrame.colVals, List.map_map]
  have hst : (colValsByName (convertStage df s e p) s).all Value.isNa = true := by
    rw [convertStage_colVals_s df s e p i j hi hj hij hrows, hfuse_s]
    exact (allNa_convert_iff p (df.colVals i)).mpr hs
  unfold filter_short_surveys
  simp only [hcs, hce, Bool.not_true, Bool.or_self, Bool.false_eq_true, if_false,
    hst, if_true]

theorem filter_short_surveys_err_e (df : DataFrame) (s e : String)
    (p : Value → Option ℚ) (i j : Nat)
    (hi : colIdx df s = some i) (hj : colIdx df e = some j) (hij : i ≠ j)
    (hrows : ∀ r ∈ df.rows, r.length = df.cols.length)
    (hs : ¬ ∀ v ∈ df.colVals i, p v = none)
    (he : ∀ v ∈ df.colVals j, p v = none) :
    filter_short_surveys df s e p = .error (.conversionFailed e) := by
  have hcs : df.cols.contains s = true := contains_of_colIdxAux hi
  have hce : df.cols.contains e = true := contains_of_colIdxAux hj
  have hfuse_s : df.rows.map (fun r => convertTimeVal p (r.getD i .na)) =
      (df.colVals i).map (convertTimeVal p) := by
    simp [DataFrame.colVals, List.map_map]
  have hfuse_e : df.rows.map (fun r => convertTimeVal p (r.getD j .na)) =
      (df.colVals j).map (convertTimeVal p) := by
    simp [DataFrame.colVals, List.map_map]
  have hsf : (colValsByName (convertStage df s e p) s).all Value.isNa = false := by
    rw [convertStage_colVals_s df s e p i j hi hj hij hrows, hfuse_s]
    rcases hb : ((df.colVals i).map (convertTimeVal p)).all Value.isNa with _ | _
    · rfl
    · exact absurd ((allNa_convert_iff p (df.colVals i)).mp hb) hs
  have het : (colValsByName (convertStage df s e p) e).all Value.isNa = true := by
    rw [convertStage_colVals_e df s e p i j hi hj hij hrows, hfuse_e]
    exact (allNa_convert_iff p (df.colVals j)).mpr he
  unfold filter_short_surveys
  simp only [hcs, hce, Bool.not_true, Bool.or_self, Bool.false_eq_true, if_false,
    hsf, het, if_true]

/-!
Concrete evaluation of the quartiles and fences on the spec's worked
numeric example.
-/

theorem parseableC9 : parseableVals dfC9 0 parseNumSimple =
    [10, 12, 11, 13, 100, 9, 12] := by decide

theorem quantC9_1 : quantile [(10:ℚ), 12, 11, 13, 100, 9, 12] (1/4) = some (21/2) := by
  have hs : sortQ [(10:ℚ), 12, 11, 13, 100, 9, 12] = [9, 10, 11, 12, 12, 13, 100] := by
    decide
  simp only [quantile, hs, List.isEmpty_cons, List.length_cons, List.length_nil]
  norm_num [List.getD]

theorem quantC9_3 : quantile [(10:ℚ), 12, 11, 13, 100, 9, 12] (3/4) = some (25/2) := by
  have hs : sortQ [(10:ℚ), 12, 11, 13, 100, 9, 12] = [9, 10, 11, 12, 12, 13, 100] := by
    decide
  simp only [quantile, hs, List.isEmpty_cons, List.length_cons, List.length_nil]
  have hfl : ⌊((((0:ℕ)+1+1+1+1+1+1+1 : ℕ) : ℚ) - 1) * (3/4)⌋ = (4 : ℤ) := by norm_num
  rw [hfl]
  have ht : (4 : ℤ).toNat = 4 := rfl
  norm_num [List.getD, ht]

theorem specBoundsC9 : specBounds dfC9 0 parseNumSimple = some (15/2, 31/2) := by
  unfold specBounds
  rw [parseableC9, quantC9_1, quantC9_3]
  norm_num

theorem outliersC9 : identify_outliers dfC9 "v" parseNumSimple = .ok [[.str "100"]] := by
  have hfil := identify_outliers_eq_filter dfC9 "v" parseNumSimple 0 (by decide) (by decide)
  rw [hfil]
  have hpred : ∀ s : String, ∀ q : ℚ, stripToNumeric parseNumSimple (.str s) = some q →
      specOutlierPred dfC9 0 parseNumSimple (.str s) =
        (decide (q < 15/2) || decide (31/2 < q)) := by
    intro s q hq
    unfold specOutlierPred
    rw [hq, specBoundsC9]
  have h10 : specOutlierPred dfC9 0 parseNumSimple (.str "10") = false := by
    rw [hpred "10" 10 (by decide)]
    norm_num
  have h12 : specOutlierPred dfC9 0 parseNumSimple (.str "12") = false := by
    rw [hpred "12" 12 (by decide)]
    norm_num
  have h11 : specOutlierPred dfC9 0 parseNumSimple (.str "11") = false := by
    rw [hpred "11" 11 (by decide)]
    norm_num
  have h13 : specOutlierPred dfC9 0 parseNumSimple (.str "13") = false := by
    rw [hpred "13" 13 (by decide)]
    norm_num
  have h100 : specOutlierPred dfC9 0 parseNumSimple (.str "100") = true := by
    rw [hpred "100" 100 (by decide)]
    norm_num
  have h9 : specOutlierPred dfC9 0 parseNumSimple (.str "9") = false := by
    rw [hpred "9" 9 (by decide)]
    norm_num
  have hr : dfC9.rows = [[Value.str "10"], [Value.str "12"], [Value.str "11"],
      [Value.str "13"], [Value.str "100"], [Value.str "9"], [Value.str "12"]] := rfl
  rw [hr]
  simp [List.filter_cons, List.getD, h10, h11, h12, h13, h9, h100]

/-!
Lemmas about the consistency-check loop and the error-count dictionary.
-/

theorem checkRule_eq (df : DataFrame) (rule : Rule) (pyLower : String → String)
    (rePat : String → Option (String → Bool))
    (h : ruleEvaluable df rule pyLower rePat = true) :
    checkRule df rule pyLower rePat = .ok (ruleCount df rule pyLower rePat) := by
  unfold ruleEvaluable at h
  unfold checkRule ruleCount
  cases h1 : colIdx df rule.question_1 with
  | none => rw [h1] at h; simp at h
  | some i =>
    cases h2 : colIdx df rule.question_2 with
    | none => rw [h1, h2] at h; simp at h
    | some j =>
      rw [h1, h2] at h
      have hh : (strAccessorOk (df.colVals j) &&
          (rePat (pyLower rule.invalid_answer_2_contains)).isSome) = true := h
      rw [Bool.and_eq_true] at hh
      cases h3 : rePat (pyLower rule.invalid_answer_2_contains) with
      | none =>
        rw [h3] at hh
        simp at hh
      | some matcher =>
        simp only [hh.1, if_true, h3]

theorem checkRule_keyError_q1 (df : DataFrame) (rule : Rule)
    (pyLower : String → String) (rePat : String → Option (String → Bool))
    (h : colIdx df rule.question_1 = none) :
    checkRule df rule pyLower rePat = .error (.keyError rule.question_1) := by
  unfold checkRule
  rw [h]

theorem checkRule_keyError_q2 (df : DataFrame) (rule : Rule)
    (pyLower : String → String) (rePat : String → Option (String → Bool)) (i : Nat)
    (h1 : colIdx df rule.question_1 = some i)
    (h2 : colIdx df rule.question_2 = none) :
    checkRule df rule pyLower rePat = .error (.keyError rule.question_2) := by
  unfold checkRule
  rw [h1, h2]

theorem checkRule_reError (df : DataFrame) (rule : Rule)
    (pyLower : String → String) (rePat : String → Option (String → Bool)) (i j : Nat)
    (h1 : colIdx df rule.question_1 = some i)
    (h2 : colIdx df rule.question_2 = some j)
    (h3 : strAccessorOk (df.colVals j) = true)
    (h4 : rePat (pyLower rule.invalid_answer_2_contains) = none) :
    checkRule df rule pyLower rePat = .error .reError := by
  unfold checkRule
  rw [h1, h2]
  simp only [h3, if_true, h4]

theorem find_replace_self (m : List (String × Nat)) (k : String) (v : Nat)
    (h : m.any (fun p => p.1 == k) = true) :
    (m.map (fun p => if p.1 == k then (k, v) else p)).find?
      (fun p => p.1 == k) = some (k, v) := by
  induction m with
  | nil => simp at h
  | cons a m ih =>
    by_cases ha : (a.1 == k) = true
    · simp [List.find?, ha]
    · have ha' : (a.1 == k) = false := by
        rcases hb : (a.1 == k) with _ | _
        · rfl
        · exact absurd hb ha
      simp only [List.any_cons, Bool.or_eq_true] at h
      rcases h with h | h
      · exact absurd h ha
      · simp only [List.map_cons, ha', Bool.false_eq_true, if_false]
        rw [List.find?_cons_of_neg _ (by simp [ha'])]
        exact ih h

theorem find_append_self (m : List (String × Nat)) (k : String) (v : Nat)
    (h : m.any (fun p => p.1 == k) = false) :
    (m ++ [(k, v)]).find? (fun p => p.1 == k) = some (k, v) := by
  induction m with
  | nil => simp [List.find?]
  | cons a m ih =>
    simp only [List.any_cons, Bool.or_eq_false_iff] at h
    simp only [List.cons_append]
    rw [List.find?_cons_of_neg _ (by simp [h.1])]
    exact ih h.2

theorem lookupDict_dictInsert_self (m : List (String × Nat)) (k : String) (v : Nat) :
    lookupDict (dictInsert m k v) k = some v := by
  unfold dictInsert lookupDict
  cases hb : m.any (fun p => p.1 == k) with
  | true => simp only [if_true, find_replace_self m k v hb, Option.map_some']
  | false => simp only [Bool.false_eq_true, if_false, find_append_self m k v hb,
      Option.map_some']

theorem find_replace_ne (m : List (String × Nat)) (k : String) (v : Nat)
    (k' : String) (h : (k' == k) = false) :
    (m.map (fun p => if p.1 == k then (k, v) else p)).find? (fun p => p.1 == k') =
      m.find? (fun p => p.1 == k') := by
  induction m with
  | nil => rfl
  | cons a m ih =>
    by_cases ha : (a.1 == k) = true
    · have hak : a.1 = k := beq_iff_eq.mp ha
      have h1 : (k == k') = false := beq_symm_false h
      have h2 : (a.1 == k') = false := by rw [hak]; exact h1
      simp only [List.map_cons, ha, if_true]
      rw [List.find?_cons_of_neg _ (by simp [h1]),
        List.find?_cons_of_neg _ (by simp [h2])]
      exact ih
    · have ha' : (a.1 == k) = false := by
        rcases hb : (a.1 == k) with _ | _
        · rfl
        · exact absurd hb ha
      simp only [List.map_cons, ha', Bool.false_eq_true, if_false]
      cases hk' : (a.1 == k') with
      | true =>
        rw [List.find?_cons_of_pos _ (by simp [hk']),
          List.find?_cons_of_pos _ (by simp [hk'])]
      | false =>
        rw [List.find?_cons_of_neg _ (by simp [hk']),
          List.find?_cons_of_neg _ (by simp [hk'])]
        exact ih

theorem find_append_ne (m : List (String × Nat)) (k : String) (v : Nat)
    (k' : String) (h : (k' == k) = false) :
    (m ++ [(k, v)]).find? (fun p => p.1 == k') = m.find? (fun p => p.1 == k') := by
  induction m with
  | nil =>
    simp only [List.nil_append, List.find?_nil]
    rw [List.find?_cons_of_neg _ (by simp [beq_symm_false h])]
    rfl
  | cons a m ih =>
    simp only [List.cons_append]
    cases hk' : (a.1 == k') with
    | true =>
      rw [List.find?_cons_of_pos _ (by simp [hk']),
        List.find?_cons_of_pos _ (by simp [hk'])]
    | false =>
      rw [List.find?_cons_of_neg _ (by simp [hk']),
        List.find?_cons_of_neg _ (by simp [hk'])]
      exact ih

theorem lookupDict_dictInsert_ne (m : List (String × Nat)) (k : String) (v : Nat)
    (k' : String) (h : (k' == k) = false) :
    lookupDict (dictInsert m k v) k' = lookupDict m k' := by
  unfold dictInsert lookupDict
  cases hb : m.any (fun p => p.1 == k) with
  | true => rw [if_pos rfl, find_replace_ne m k v k' h]
  | false =>
    simp only [Bool.false_eq_true, if_false]
    rw [find_append_ne m k v k' h]

theorem ccLoop_counts (df : DataFrame) (pyLower : String → String)
    (rePat : String → Option (String → Bool)) (rules : List Rule) :
    ∀ acc : List (String × Nat),
    (rules.map Rule.error_label).Nodup →
    (∀ rule ∈ rules, ruleEvaluable df rule pyLower rePat = true) →
    ∃ m, ccLoop df pyLower rePat acc rules = .ok m ∧
      (∀ rule ∈ rules, lookupDict m rule.error_label =
        some (ruleCount df rule pyLower rePat)) ∧
      (∀ k : String, k ∉ rules.map Rule.error_label →
        lookupDict m k = lookupDict acc k) := by
  induction rules with
  | nil =>
    intro acc _ _
    exact ⟨acc, rfl, by simp, fun k _ => rfl⟩
  | cons rule rest ih =>
    intro acc hnd hev
    have hre : ruleEvaluable df rule pyLower rePat = true :=
      hev rule (List.mem_cons_self _ _)
    have hckr := checkRule_eq df rule pyLower rePat hre
    simp only [List.map_cons, List.nodup_cons] at hnd
    obtain ⟨hnotin, hnd'⟩ := hnd
    obtain ⟨m, hm, hrules, hpres⟩ :=
      ih (dictInsert acc rule.error_label (ruleCount df rule pyLower rePat)) hnd'
        (fun r hr => hev r (List.mem_cons_of_mem _ hr))
    refine ⟨m, ?_, ?_, ?_⟩
    · simp only [ccLoop, hckr]
      exact hm
    · intro r hr
      rcases List.mem_cons.mp hr with rfl | hr'
      · rw [hpres _ hnotin]
        exact lookupDict_dictInsert_self acc r.error_label
          (ruleCount df r pyLower rePat)
      · exact hrules r hr'
    · intro k hk
      have hk1 : k ∉ rest.map Rule.error_label :=
        fun hmem => hk (List.mem_cons_of_mem _ hmem)
      have hk2 : k ≠ rule.error_label := fun he => hk (by simp [he])
      rw [hpres k hk1]
      exact lookupDict_dictInsert_ne acc rule.error_label _ k
        (beq_eq_false_iff_ne.mpr hk2)

theorem ccLoop_first_error (df : DataFrame) (pyLower : String → String)
    (rePat : String → Option (String → Bool)) (pre : List Rule) :
    ∀ acc (rule : Rule) (post : List Rule) (e : Err),
    (∀ r ∈ pre, ruleEvaluable df r pyLower rePat = true) →
    checkRule df rule pyLower rePat = .error e →
    ccLoop df pyLower rePat acc (pre ++ rule :: post) = .error e := by
  induction pre with
  | nil =>
    intro acc rule post e _ hrule
    simp only [List.nil_append, ccLoop, hrule]
  | cons r0 rest ih =>
    intro acc rule post e hpre hrule
    have h0 := checkRule_eq df r0 pyLower rePat (hpre r0 (List.mem_cons_self _ _))
    simp only [List.cons_append, ccLoop, h0]
    exact ih _ rule post e (fun r hr => hpre r (List.mem_cons_of_mem _ hr)) hrule

theorem dictInsert_zero (m : List (String × Nat)) (k : String)
    (h : ∀ q ∈ m, q.2 = 0) : ∀ q ∈ dictInsert m k 0, q.2 = 0 := by
  intro q hq
  unfold dictInsert at hq
  by_cases hb : m.any (fun p => p.1 == k) = true
  · rw [if_pos hb] at hq
    obtain ⟨p, hp, hpq⟩ := List.mem_map.mp hq
    by_cases hpk : (p.1 == k) = true
    · rw [if_pos hpk] at hpq
      rw [← hpq]
    · rw [if_neg hpk] at hpq
      rw [← hpq]
      exact h p hp
  · rw [if_neg hb] at hq
    rcases List.mem_append.mp hq with hq | hq
    · exact h q hq
    · simp only [List.mem_singleton] at hq
      rw [hq]

theorem lookupDict_isSome_dictInsert (m : List (String × Nat)) (k : String) (v : Nat)
    (k' : String) (h : (lookupDict m k').isSome = true) :
    (lookupDict (dictInsert m k v) k').isSome = true := by
  by_cases he : (k' == k) = true
  · have hkk : k' = k := beq_iff_eq.mp he
    subst hkk
    rw [lookupDict_dictInsert_self]
    rfl
  · have he' : (k' == k) = false := by
      rcases hb : (k' == k) with _ | _
      · rfl
      · exact absurd hb he
    rw [lookupDict_dictInsert_ne m k v k' he']
    exact h

theorem lookupDict_zero (m : List (String × Nat)) (k : String)
    (hz : ∀ q ∈ m, q.2 = 0) (hs : (lookupDict m k).isSome = true) :
    lookupDict m k = some 0 := by
  unfold lookupDict at *
  cases hf : m.find? (fun p => p.1 == k) with
  | none =>
    rw [hf] at hs
    simp at hs
  | some q =>
    have hq : q ∈ m := List.mem_of_find?_eq_some hf
    simp [hz q hq]

theorem ccLoop_zero_counts (df : DataFrame) (pyLower : String → String)
    (rePat : String → Option (String → Bool))
    (hempty : df.rows = []) (rules : List Rule) :
    ∀ acc, (∀ rule ∈ rules, ruleEvaluable df rule pyLower rePat = true) →
    (∀ q ∈ acc, q.2 = 0) →
    ∃ m, ccLoop df pyLower rePat acc rules = .ok m ∧ (∀ q ∈ m, q.2 = 0) ∧
      (∀ k, (lookupDict acc k).isSome = true → (lookupDict m k).isSome = true) ∧
      (∀ rule ∈ rules, lookupDict m rule.error_label = some 0) := by
  induction rules with
  | nil =>
    intro acc _ hz
    exact ⟨acc, rfl, hz, fun k h => h, by simp⟩
  | cons rule rest ih =>
    intro acc hev hz
    have hre := hev rule (List.mem_cons_self _ _)
    have hcnt : ruleCount df rule pyLower rePat = 0 := by
      unfold ruleCount
      cases colIdx df rule.question_1 <;> cases colIdx df rule.question_2 <;>
        cases rePat (pyLower rule.invalid_answer_2_contains) <;> simp [hempty]
    have hckr := checkRule_eq df rule pyLower rePat hre
    rw [hcnt] at hckr
    obtain ⟨m, hm, hmz, hpers, hrules⟩ := ih (dictInsert acc rule.error_label 0)
      (fun r hr => hev r (List.mem_cons_of_mem _ hr))
      (dictInsert_zero acc rule.error_label hz)
    refine ⟨m, ?_, hmz, ?_, ?_⟩
    · simp only [ccLoop, hckr]
      exact hm
    · intro k hk
      exact hpers k (lookupDict_isSome_dictInsert acc rule.error_label 0 k hk)
    · intro r hr
      rcases List.mem_cons.mp hr with rfl | hr'
      · have hsome : (lookupDict (dictInsert acc r.error_label 0) r.error_label).isSome
            = true := by
          rw [lookupDict_dictInsert_self]
          rfl
        exact lookupDict_zero m r.error_label hmz (hpers _ hsome)
      · exact hrules r hr'

/-!
Frame conditions of the mutation, swap symmetry, and edge-case lemmas.
-/

theorem mutatedDF_frame (df : DataFrame) (i j : Nat) (p : Value → Option ℚ)
    (k : Nat) (hk : k < df.cols.length) (hki : k ≠ i) (hkj : k ≠ j)
    (hrows : ∀ r ∈ df.rows, r.length = df.cols.length) :
    (mutatedDF df i j p).colVals k = df.colVals k := by
  unfold mutatedDF DataFrame.colVals
  simp only [List.map_map]
  refine List.map_congr_left (fun r hr => ?_)
  simp only [Function.comp_apply]
  unfold convRow
  have hklen : k < ((r.set i (convertTimeVal p (r.getD i .na))).set j
      (convertTimeVal p (r.getD j .na))).length := by
    simp only [List.length_set]
    rw [hrows r hr]
    exact hk
  rw [getD_append_left _ _ k Value.na hklen]
  rw [getD_set_ne _ j k _ Value.na (fun h => hkj h.symm)]
  rw [getD_set_ne _ i k _ Value.na (fun h => hki h.symm)]

theorem selectMask_swap (df : DataFrame) (s e : String) (p : Value → Option ℚ)
    (i j : Nat) (hi : colIdx df s = some i) (hj : colIdx df e = some j)
    (hij : i ≠ j) (hrows : ∀ r ∈ df.rows, r.length = df.cols.length)
    (hdur : df.cols.contains "duration" = false) :
    selectMask (swapCols df s e) s e p = selectMask df s e p := by
  have hsw : swapCols df s e = ⟨df.cols, df.rows.map (swapValsRow i j)⟩ := by
    unfold swapCols
    rw [hi, hj]
  rw [hsw]
  have hi' : colIdx ⟨df.cols, df.rows.map (swapValsRow i j)⟩ s = some i := hi
  have hj' : colIdx ⟨df.cols, df.rows.map (swapValsRow i j)⟩ e = some j := hj
  have hrows' : ∀ r ∈ df.rows.map (swapValsRow i j), r.length = df.cols.length := by
    intro r hr
    obtain ⟨r0, hr0, rfl⟩ := List.mem_map.mp hr
    unfold swapValsRow
    simp [hrows r0 hr0]
  rw [selectMask_eq ⟨df.cols, df.rows.map (swapValsRow i j)⟩ s e p i j hi' hj' hij
    hrows' hdur]
  rw [selectMask_eq df s e p i j hi hj hij hrows hdur]
  simp only [List.map_map]
  refine List.map_congr_left (fun r hr => ?_)
  simp only [Function.comp_apply]
  have hgi : (swapValsRow i j r).getD i Value.na = r.getD j Value.na := by
    unfold swapValsRow
    rw [getD_set_ne _ j i _ Value.na (fun h => hij h.symm)]
    refine getD_set_self r i _ Value.na ?_
    rw [hrows r hr]
    exact colIdxAux_lt_length hi
  have hgj : (swapValsRow i j r).getD j Value.na = r.getD i Value.na := by
    unfold swapValsRow
    refine getD_set_self _ j _ Value.na ?_
    simp only [List.length_set]
    rw [hrows r hr]
    exact colIdxAux_lt_length hj
  unfold specSelB specRowDuration
  rw [hgi, hgj]
  cases p (r.getD i Value.na) <;> cases p (r.getD j Value.na) <;>
    simp only [abs_sub_comm]

theorem identify_outliers_empty (df : DataFrame) (column : String)
    (p : String → Option ℚ) (i : Nat)
    (hi : colIdx df column = some i) (hempty : df.rows = []) :
    identify_outliers df column p = .ok [] := by
  have h := identify_outliers_eq_filter df column p i hi
    (by simp [DataFrame.colVals, hempty])
  rw [h, hempty]
  rfl

theorem identify_outliers_numeric_err (df : DataFrame) (column : String)
    (p : String → Option ℚ) (i : Nat)
    (hi : colIdx df column = some i) (hne : df.rows ≠ [])
    (hnum : ∀ v ∈ df.colVals i, v.isStr = false) :
    identify_outliers df column p = .error .strAccessorError := by
  have hanyf : (df.colVals i).any Value.isStr = false := by
    rw [List.any_eq_false]
    intro v hv
    rw [hnum v hv]
    exact Bool.false_ne_true
  have hcne : (df.colVals i).isEmpty = false := by
    cases hr : df.rows with
    | nil => exact absurd hr hne
    | cons r rs =>
      unfold DataFrame.colVals
      rw [hr]
      rfl
  have hacc : strAccessorOk (df.colVals i) = false := by
    unfold strAccessorOk
    rw [hanyf, hcne]
    rfl
  unfold identify_outliers
  rw [hi]
  simp only [hacc, Bool.false_eq_true, if_false]

/-!
Claim theorems.
-/

/-- C1: for every dataset and existing all-string column, `identify_outliers`
returns exactly the rows (in original order, original cells untouched) whose
whitespace-stripped value parses and lies strictly outside the fences
`[Q1 - 1.5·IQR, Q3 + 1.5·IQR]` computed by linear-interpolation quartiles of
the parseable values; unparsable rows are never returned. -/
theorem C1_detect_outliers_fence_rows (df : DataFrame) (column : String)
    (parseNum : String → Option ℚ) (i : Nat)
    (hi : colIdx df column = some i)
    (hstr : ∀ v ∈ df.colVals i, v.isStr = true) :
    identify_outliers df column parseNum =
      .ok (df.rows.filter (fun r => specOutlierPred df i parseNum (r.getD i .na))) :=
  identify_outliers_eq_filter df column parseNum i hi hstr

theorem C1_detect_outliers_fence_rows_witness :
    (colIdx dfC1 "c" = some 0 ∧ ∀ v ∈ dfC1.colVals 0, v.isStr = true) ∧
    identify_outliers dfC1 "c" parseNumSimple =
      .ok (dfC1.rows.filter (fun r => specOutlierPred dfC1 0 parseNumSimple
        (r.getD 0 .na))) :=
  ⟨⟨by decide, by decide⟩,
   C1_detect_outliers_fence_rows dfC1 "c" parseNumSimple 0 (by decide) (by decide)⟩

/-- C2 counterexample: with the pattern `"."` the code's `str.contains`
performs a regex search, so the single row `q2 = "ab"` is counted although
`"."` is not a literal substring of `"ab"`; the claim's literal-substring
count is 0 while the code reports 1. -/
theorem C2_consistency_literal_counterexample :
    check_data_consistency dfC2x [ruleC2x] pyLowerAscii rePatDot = .ok [("L1", 1)] ∧
    ruleCountLiteral dfC2x ruleC2x = 0 := by
  decide

/-- C2 amended: for every lowering function and every compile-and-search
function (in particular the real Unicode `str.lower` and `re` semantics),
`check_data_consistency` maps each label to the number of rows with an
exact match on q1 and a successful regex search of the lowered pattern in
the lowered q2 cell (absent and non-string q2 cells never match), provided
each rule's columns exist, each q2 column has at least one string value,
each pattern compiles, and labels are not duplicated. -/
theorem C2_consistency_regex_counts (df : DataFrame) (rules : List Rule)
    (pyLower : String → String) (rePat : String → Option (String → Bool))
    (hnd : (rules.map Rule.error_label).Nodup)
    (hev : ∀ rule ∈ rules, ruleEvaluable df rule pyLower rePat = true) :
    ∃ m, check_data_consistency df rules pyLower rePat = .ok m ∧
      ∀ rule ∈ rules, lookupDict m rule.error_label =
        some (ruleCount df rule pyLower rePat) := by
  obtain ⟨m, hm, hr, _⟩ := ccLoop_counts df pyLower rePat rules [] hnd hev
  exact ⟨m, hm, hr⟩

theorem C2_consistency_regex_counts_witness :
    ((([ruleC2].map Rule.error_label).Nodup ∧
      ∀ rule ∈ [ruleC2], ruleEvaluable dfC2 rule pyLowerAscii rePatDot = true) ∧
     ruleCount dfC2 ruleC2 pyLowerAscii rePatDot = 1) ∧
    ∃ m, check_data_consistency dfC2 [ruleC2] pyLowerAscii rePatDot = .ok m ∧
      ∀ rule ∈ [ruleC2], lookupDict m rule.error_label =
        some (ruleCount dfC2 rule pyLowerAscii rePatDot) :=
  ⟨⟨⟨by decide, by decide⟩, by decide⟩,
   C2_consistency_regex_counts dfC2 [ruleC2] pyLowerAscii rePatDot (by decide)
     (by decide)⟩

/-- C3: with both timestamp columns present, distinct, each containing at
least one parseable value and no pre-existing duration column, the function
returns exactly the rows whose duration `|end - start|` in minutes is
strictly below 20 (rows with an unparsable endpoint are excluded), in
original order, with the duration appended and fully-absent columns
dropped. -/
theorem C3_filter_short_surveys_rows (df : DataFrame) (s e : String)
    (p : Value → Option ℚ) (i j : Nat)
    (hi : colIdx df s = some i) (hj : colIdx df e = some j) (hij : i ≠ j)
    (hrows : ∀ r ∈ df.rows, r.length = df.cols.length)
    (hdur : df.cols.contains "duration" = false)
    (hs : ¬ ∀ v ∈ df.colVals i, p v = none)
    (he : ¬ ∀ v ∈ df.colVals j, p v = none) :
    filter_short_surveys df s e p =
      .ok (mutatedDF df i j p,
        dropAllNaCols ⟨df.cols ++ ["duration"],
          (df.rows.filter (specSelB p i j)).map (convRow p i j)⟩) :=
  filter_short_surveys_ok df s e p i j hi hj hij hrows hdur hs he

theorem C3_filter_short_surveys_rows_witness :
    ((¬ ∀ v ∈ dfC3.colVals 0, parseTimeSimple v = none) ∧
     (¬ ∀ v ∈ dfC3.colVals 1, parseTimeSimple v = none)) ∧
    filter_short_surveys dfC3 "s" "e" parseTimeSimple =
      .ok (mutatedDF dfC3 0 1 parseTimeSimple,
        dropAllNaCols ⟨dfC3.cols ++ ["duration"],
          (dfC3.rows.filter (specSelB parseTimeSimple 0 1)).map
            (convRow parseTimeSimple 0 1)⟩) :=
  ⟨⟨by decide, by decide⟩,
   C3_filter_short_surveys_rows dfC3 "s" "e" parseTimeSimple 0 1 (by decide)
     (by decide) (by decide) (by decide) (by decide) (by decide) (by decide)⟩

/-- C4 counterexample: after the call the caller's DataFrame has been
mutated — the start and end columns hold parsed timestamps instead of the
original strings, and a new `duration` column has appeared. -/
theorem C4_no_mutation_counterexample :
    filter_short_surveys dfC4 "s" "e" parseTimeSimple =
      .ok (⟨["s", "e", "duration"],
            [[.time 0, .na, .na], [.na, .time 0, .na]]⟩,
           ⟨[], []⟩) ∧
    (⟨["s", "e", "duration"],
      [[.time 0, .na, .na], [.na, .time 0, .na]]⟩ : DataFrame) ≠ dfC4 := by
  decide

/-- C4 amended: `identify_outliers` and `check_data_consistency` do not
touch the dataset, but `filter_short_surveys` leaves the caller's DataFrame
with the two timestamp columns converted in place and a new `duration`
column appended; every other column is unchanged. -/
theorem C4_mutation_amended (df : DataFrame) (s e : String)
    (p : Value → Option ℚ) (i j : Nat)
    (hi : colIdx df s = some i) (hj : colIdx df e = some j) (hij : i ≠ j)
    (hrows : ∀ r ∈ df.rows, r.length = df.cols.length)
    (hdur : df.cols.contains "duration" = false)
    (hs : ¬ ∀ v ∈ df.colVals i, p v = none)
    (he : ¬ ∀ v ∈ df.colVals j, p v = none) :
    (∃ res, filter_short_surveys df s e p = .ok (mutatedDF df i j p, res)) ∧
    (mutatedDF df i j p).cols = df.cols ++ ["duration"] ∧
    ∀ k, k < df.cols.length → k ≠ i → k ≠ j →
      (mutatedDF df i j p).colVals k = df.colVals k := by
  refine ⟨⟨_, filter_short_surveys_ok df s e p i j hi hj hij hrows hdur hs he⟩,
    rfl, ?_⟩
  intro k hk hki hkj
  exact mutatedDF_frame df i j p k hk hki hkj hrows

theorem C4_mutation_amended_witness :
    ((¬ ∀ v ∈ dfC4.colVals 0, parseTimeSimple v = none) ∧
     (¬ ∀ v ∈ dfC4.colVals 1, parseTimeSimple v = none)) ∧
    (∃ res, filter_short_surveys dfC4 "s" "e" parseTimeSimple =
      .ok (mutatedDF dfC4 0 1 parseTimeSimple, res)) ∧
    (mutatedDF dfC4 0 1 parseTimeSimple).cols = dfC4.cols ++ ["duration"] ∧
    ∀ k, k < dfC4.cols.length → k ≠ 0 → k ≠ 1 →
      (mutatedDF dfC4 0 1 parseTimeSimple).colVals k = dfC4.colVals k :=
  ⟨⟨by decide, by decide⟩,
   C4_mutation_amended dfC4 "s" "e" parseTimeSimple 0 1 (by decide) (by decide)
     (by decide) (by decide) (by decide) (by decide) (by decide)⟩

/-- C5 counterexample: a rule whose trigger column does not exist makes the
whole call fail with a `KeyError` naming that column; the valid second rule
is never processed and no mapping is returned, so there is no per-rule
isolation. -/
theorem C5_missing_column_counterexample :
    check_data_consistency dfC5 rulesC5 pyLowerAscii rePatDot =
      .error (.keyError "missing") ∧
    colIdx dfC5 "missing" = none := by
  decide

/-- C5 amended: when every rule before some rule evaluates cleanly and
that rule references a missing column, `check_data_consistency` aborts the
entire batch at that first failing rule with a `KeyError` naming the
missing column (q1 is checked before q2); later rules are not evaluated
and no mapping — in particular never a silently empty one — is returned. -/
theorem C5_missing_column_amended (df : DataFrame) (rules pre post : List Rule)
    (rule : Rule) (pyLower : String → String)
    (rePat : String → Option (String → Bool))
    (hsplit : rules = pre ++ rule :: post)
    (hpre : ∀ r ∈ pre, ruleEvaluable df r pyLower rePat = true) :
    (colIdx df rule.question_1 = none →
      check_data_consistency df rules pyLower rePat =
        .error (.keyError rule.question_1)) ∧
    (∀ i, colIdx df rule.question_1 = some i →
      colIdx df rule.question_2 = none →
      check_data_consistency df rules pyLower rePat =
        .error (.keyError rule.question_2)) := by
  subst hsplit
  constructor
  · intro h1
    exact ccLoop_first_error df pyLower rePat pre [] rule post _ hpre
      (checkRule_keyError_q1 df rule pyLower rePat h1)
  · intro i h1 h2
    exact ccLoop_first_error df pyLower rePat pre [] rule post _ hpre
      (checkRule_keyError_q2 df rule pyLower rePat i h1 h2)

theorem C5_missing_column_amended_witness :
    (rulesC5 = [] ++ ⟨"missing", .str "Y", "b", "err", "L1"⟩ ::
        [⟨"a", .str "Y", "b", "err", "L2"⟩] ∧
     colIdx dfC5 "missing" = none) ∧
    check_data_consistency dfC5 rulesC5 pyLowerAscii rePatDot =
      .error (.keyError "missing") :=
  ⟨⟨by decide, by decide⟩,
   (C5_missing_column_amended dfC5 rulesC5 []
      [⟨"a", .str "Y", "b", "err", "L2"⟩] ⟨"missing", .str "Y", "b", "err", "L1"⟩
      pyLowerAscii rePatDot (by decide) (by decide)).1 (by decide)⟩

/-- C6 counterexample: on a zero-row dataset every value of the start
column is vacuously unparsable (`isna().all()` of an empty series is true),
so `filter_short_surveys` raises the conversion error instead of returning
an empty result. -/
theorem C6_empty_counterexample :
    dfEmpty.rows = [] ∧
    filter_short_surveys dfEmpty "start" "end" parseTimeSimple =
      .error (.conversionFailed "start") := by
  decide

/-- C6 amended: on a zero-row dataset `identify_outliers` returns zero rows
and `check_data_consistency` reports a count of 0 for every rule whose
columns exist and whose pattern compiles — a rule with a malformed pattern
still raises `re.error` even with zero rows, as the last conjunct shows —
while `filter_short_surveys` raises a `ConversionError` naming the start
column because an empty column counts as entirely unparsable. -/
theorem C6_empty_dataset_amended (df : DataFrame) (column s e : String)
    (p1 : String → Option ℚ) (p2 : Value → Option ℚ)
    (pyLower : String → String) (rePat : String → Option (String → Bool))
    (rules : List Rule) (i k l : Nat) (hempty : df.rows = [])
    (hc : colIdx df column = some i)
    (hks : colIdx df s = some k) (hle : colIdx df e = some l) (hkl : k ≠ l)
    (hev : ∀ rule ∈ rules, ruleEvaluable df rule pyLower rePat = true) :
    identify_outliers df column p1 = .ok [] ∧
    (∃ m, check_data_consistency df rules pyLower rePat = .ok m ∧
      ∀ rule ∈ rules, lookupDict m rule.error_label = some 0) ∧
    filter_short_surveys df s e p2 = .error (.conversionFailed s) ∧
    (∀ rule0 : Rule, ∀ i0 j0 : Nat, colIdx df rule0.question_1 = some i0 →
      colIdx df rule0.question_2 = some j0 →
      strAccessorOk (df.colVals j0) = true →
      rePat (pyLower rule0.invalid_answer_2_contains) = none →
      check_data_consistency df [rule0] pyLower rePat = .error .reError) := by
  refine ⟨identify_outliers_empty df column p1 i hc hempty, ?_, ?_, ?_⟩
  · obtain ⟨m, hm, _, _, hz⟩ :=
      ccLoop_zero_counts df pyLower rePat hempty rules [] hev (by simp)
    exact ⟨m, hm, hz⟩
  · refine filter_short_surveys_err_s df s e p2 k l hks hle hkl ?_ ?_
    · intro r hr
      rw [hempty] at hr
      cases hr
    · intro v hv
      unfold DataFrame.colVals at hv
      rw [hempty] at hv
      cases hv
  · intro rule0 i0 j0 h1 h2 h3 h4
    have hck := checkRule_reError df rule0 pyLower rePat i0 j0 h1 h2 h3 h4
    unfold check_data_consistency ccLoop
    rw [hck]

theorem C6_empty_dataset_amended_witness :
    (dfEmpty.rows = [] ∧
     ∀ rule ∈ [ruleEmpty], ruleEvaluable dfEmpty rule pyLowerAscii rePatDot = true) ∧
    identify_outliers dfEmpty "q" parseNumSimple = .ok [] ∧
    (∃ m, check_data_consistency dfEmpty [ruleEmpty] pyLowerAscii rePatDot = .ok m ∧
      ∀ rule ∈ [ruleEmpty], lookupDict m rule.error_label = some 0) ∧
    filter_short_surveys dfEmpty "start" "end" parseTimeSimple =
      .error (.conversionFailed "start") ∧
    (∀ rule0 : Rule, ∀ i0 j0 : Nat, colIdx dfEmpty rule0.question_1 = some i0 →
      colIdx dfEmpty rule0.question_2 = some j0 →
      strAccessorOk (dfEmpty.colVals j0) = true →
      rePatDot (pyLowerAscii rule0.invalid_answer_2_contains) = none →
      check_data_consistency dfEmpty [rule0] pyLowerAscii rePatDot =
        .error .reError) :=
  ⟨⟨by decide, by decide⟩,
   C6_empty_dataset_amended dfEmpty "q" "start" "end" parseNumSimple
     parseTimeSimple pyLowerAscii rePatDot [ruleEmpty] 2 0 1 (by decide)
     (by decide) (by decide) (by decide) (by decide) (by decide)⟩

theorem filter_short_surveys_isOk (df : DataFrame) (s e : String)
    (p : Value → Option ℚ) (i j : Nat)
    (hi : colIdx df s = some i) (hj : colIdx df e = some j) (hij : i ≠ j)
    (hrows : ∀ r ∈ df.rows, r.length = df.cols.length)
    (hs : ¬ ∀ v ∈ df.colVals i, p v = none)
    (he : ¬ ∀ v ∈ df.colVals j, p v = none) :
    ∃ pr, filter_short_surveys df s e p = .ok pr := by
  have hcs : df.cols.contains s = true := contains_of_colIdxAux hi
  have hce : df.cols.contains e = true := contains_of_colIdxAux hj
  have hfuse_s : df.rows.map (fun r => convertTimeVal p (r.getD i .na)) =
      (df.colVals i).map (convertTimeVal p) := by
    simp [DataFrame.colVals, List.map_map]
  have hfuse_e : df.rows.map (fun r => convertTimeVal p (r.getD j .na)) =
      (df.colVals j).map (convertTimeVal p) := by
    simp [DataFrame.colVals, List.map_map]
  have hsf : (colValsByName (convertStage df s e p) s).all Value.isNa = false := by
    rw [convertStage_colVals_s df s e p i j hi hj hij hrows, hfuse_s]
    rcases hb : ((df.colVals i).map (convertTimeVal p)).all Value.isNa with _ | _
    · rfl
    · exact absurd ((allNa_convert_iff p (df.colVals i)).mp hb) hs
  have hef : (colValsByName (convertStage df s e p) e).all Value.isNa = false := by
    rw [convertStage_colVals_e df s e p i j hi hj hij hrows, hfuse_e]
    rcases hb : ((df.colVals j).map (convertTimeVal p)).all Value.isNa with _ | _
    · rfl
    · exact absurd ((allNa_convert_iff p (df.colVals j)).mp hb) he
  unfold filter_short_surveys
  simp only [hcs, hce, Bool.not_true, Bool.or_self, Bool.false_eq_true, if_false,
    hsf, hef, if_true]
  exact ⟨_, rfl⟩

/-- C7: with both columns present and distinct, the call fails with a
`ConversionError` exactly when every start value or every end value is
unparsable; the error names the start column when the start column is
entirely unparsable, and the end column when only the end column is;
otherwise the call succeeds. -/
theorem C7_conversion_error_iff (df : DataFrame) (s e : String)
    (p : Value → Option ℚ) (i j : Nat)
    (hi : colIdx df s = some i) (hj : colIdx df e = some j) (hij : i ≠ j)
    (hrows : ∀ r ∈ df.rows, r.length = df.cols.length) :
    ((∃ c, filter_short_surveys df s e p = .error (.conversionFailed c)) ↔
      ((∀ v ∈ df.colVals i, p v = none) ∨ (∀ v ∈ df.colVals j, p v = none))) ∧
    ((∀ v ∈ df.colVals i, p v = none) →
      filter_short_surveys df s e p = .error (.conversionFailed s)) ∧
    (¬ (∀ v ∈ df.colVals i, p v = none) → (∀ v ∈ df.colVals j, p v = none) →
      filter_short_surveys df s e p = .error (.conversionFailed e)) := by
  refine ⟨⟨?_, ?_⟩, ?_, ?_⟩
  · intro ⟨c, hc⟩
    by_cases hA : ∀ v ∈ df.colVals i, p v = none
    · exact Or.inl hA
    · by_cases hB : ∀ v ∈ df.colVals j, p v = none
      · exact Or.inr hB
      · obtain ⟨pr, hpr⟩ := filter_short_surveys_isOk df s e p i j hi hj hij hrows hA hB
        rw [hpr] at hc
        cases hc
  · intro h
    by_cases hA : ∀ v ∈ df.colVals i, p v = none
    · exact ⟨s, filter_short_surveys_err_s df s e p i j hi hj hij hrows hA⟩
    · rcases h with h | h
      · exact absurd h hA
      · exact ⟨e, filter_short_surveys_err_e df s e p i j hi hj hij hrows hA h⟩
  · intro hA
    exact filter_short_surveys_err_s df s e p i j hi hj hij hrows hA
  · intro hA hB
    exact filter_short_surveys_err_e df s e p i j hi hj hij hrows hA hB

theorem C7_conversion_error_iff_witness :
    ((∀ r ∈ dfC7.rows, r.length = dfC7.cols.length) ∧
     (∀ v ∈ dfC7.colVals 0, parseTimeSimple v = none)) ∧
    filter_short_surveys dfC7 "s" "e" parseTimeSimple =
      .error (.conversionFailed "s") :=
  ⟨⟨by decide, by decide⟩,
   (C7_conversion_error_iff dfC7 "s" "e" parseTimeSimple 0 1 (by decide)
     (by decide) (by decide) (by decide)).2.1 (by decide)⟩

/-- C8: swapping the start and end column values row-wise leaves the
row-selection mask of `filter_short_surveys` unchanged, because the
duration takes the absolute value of the difference. -/
theorem C8_swap_columns_same_selection (df : DataFrame) (s e : String)
    (p : Value → Option ℚ) (i j : Nat)
    (hi : colIdx df s = some i) (hj : colIdx df e = some j) (hij : i ≠ j)
    (hrows : ∀ r ∈ df.rows, r.length = df.cols.length)
    (hdur : df.cols.contains "duration" = false) :
    selectMask (swapCols df s e) s e p = selectMask df s e p :=
  selectMask_swap df s e p i j hi hj hij hrows hdur

theorem C8_swap_columns_same_selection_witness :
    ((∀ r ∈ dfC3.rows, r.length = dfC3.cols.length) ∧
     dfC3.cols.contains "duration" = false) ∧
    selectMask (swapCols dfC3 "s" "e") "s" "e" parseTimeSimple =
      selectMask dfC3 "s" "e" parseTimeSimple :=
  ⟨⟨by decide, by decide⟩,
   C8_swap_columns_same_selection dfC3 "s" "e" parseTimeSimple 0 1 (by decide)
     (by decide) (by decide) (by decide) (by decide)⟩

/-- C9 counterexample: on `[10,12,11,13,100,9,12]` the linear-interpolation
quartiles are Q1 = 10.5 (not 10) and Q3 = 12.5, so IQR = 2 (not 2.5) and
the fences are [7.5, 15.5] (not [6.25, 16.25]). -/
theorem C9_example_numbers_counterexample :
    quantile (parseableVals dfC9 0 parseNumSimple) (1/4) = some (21/2) ∧
    ((21 : ℚ)/2 ≠ 10) ∧
    quantile (parseableVals dfC9 0 parseNumSimple) (3/4) = some (25/2) ∧
    ((25 : ℚ)/2 - 21/2 ≠ 5/2) ∧
    specBounds dfC9 0 parseNumSimple = some (15/2, 31/2) ∧
    ((15 : ℚ)/2 ≠ 25/4) ∧ ((31 : ℚ)/2 ≠ 65/4) := by
  refine ⟨?_, by norm_num, ?_, by norm_num, specBoundsC9, by norm_num, by norm_num⟩
  · rw [parseableC9]
    exact quantC9_1
  · rw [parseableC9]
    exact quantC9_3

/-- C9 amended: on `[10,12,11,13,100,9,12]` the quartiles are Q1 = 10.5 and
Q3 = 12.5, IQR = 2, fences [7.5, 15.5], and `identify_outliers` flags
exactly the row with value 100. -/
theorem C9_example_numbers_amended :
    quantile (parseableVals dfC9 0 parseNumSimple) (1/4) = some (21/2) ∧
    quantile (parseableVals dfC9 0 parseNumSimple) (3/4) = some (25/2) ∧
    specBounds dfC9 0 parseNumSimple = some (15/2, 31/2) ∧
    identify_outliers dfC9 "v" parseNumSimple = .ok [[.str "100"]] := by
  refine ⟨?_, ?_, specBoundsC9, outliersC9⟩
  · rw [parseableC9]
    exact quantC9_1
  · rw [parseableC9]
    exact quantC9_3

/-- C10: on a non-empty numeric-typed (non-string) column, the `.str`
accessor applied before parsing raises, so `identify_outliers` fails
instead of returning an outlier set. -/
theorem C10_numeric_column_raises (df : DataFrame) (column : String)
    (p : String → Option ℚ) (i : Nat)
    (hi : colIdx df column = some i) (hne : df.rows ≠ [])
    (hnum : ∀ v ∈ df.colVals i, ∃ q : ℚ, v = .num q) :
    identify_outliers df column p = .error .strAccessorError := by
  refine identify_outliers_numeric_err df column p i hi hne (fun v hv => ?_)
  obtain ⟨q, hq⟩ := hnum v hv
  rw [hq]
  rfl

theorem C10_numeric_column_raises_witness :
    (dfC10.rows ≠ [] ∧ colIdx dfC10 "n" = some 0) ∧
    identify_outliers dfC10 "n" parseNumSimple = .error .strAccessorError :=
  ⟨⟨by decide, by decide⟩,
   C10_numeric_column_raises dfC10 "n" parseNumSimple 0 (by decide) (by decide)
     (by
       intro v hv
       simp only [dfC10, DataFrame.colVals, List.map_cons, List.map_nil,
         List.mem_cons, List.not_mem_nil, or_false, List.getD] at hv
       rcases hv with hv | hv
       · exact ⟨1, hv⟩
       · exact ⟨2, hv⟩)⟩
